import Mathlib

/-!
Verification development for the fuzzy location-resolution engine of
`helpers/location_helper.py` (class `LocationHelper`).

The Python source is shallowly embedded below.  External collaborators
(Google Maps HTTP endpoints, memcache, the sitevar secret store and the
urlfetch transport) are modelled as explicit parameters: an oracle function
for each remote operation, an `Option`-valued cache argument for a memcache
lookup, and an `Except Unit (FetchResult _)` argument for the outcome of a
single `urlfetch` call (`.error ()` models a raised transport exception,
`content = none` models a response body that `json.loads` cannot parse).

Python `dict`s holding optional keys become structures with `Option` fields;
Python exceptions escaping a function become an `Option`/`Except` result.
Floats are modelled as real numbers (`pow(x, 1.0/3)` becomes `Real.rpow`);
the rational-valued parts (difflib ratios) are kept executable over `ℚ`.
-/

namespace LocationHelper

/-! ### Python string primitives

`Str` is a Python byte string.  `pyLower` is `str.lower()` (ASCII only in
Python 2), `pyStrip` is `str.strip()`, `splitOnChar` is `str.split(c)`
(keeping empty pieces), `splitTokens` is
`filter(lambda x: x, re.split('\s+|,|-', s))`: maximal runs of
non-delimiter characters, since empty pieces are filtered out.
-/

abbrev Str := List Char

def pyLower (s : Str) : Str := s.map Char.toLower

def isPySpace (c : Char) : Bool :=
  c == ' ' || c == '\t' || c == '\n' || c == '\r' || c == '\x0B' || c == '\x0C'

def pyStrip (s : Str) : Str :=
  ((s.dropWhile isPySpace).reverse.dropWhile isPySpace).reverse

def isDelim (c : Char) : Bool := isPySpace c || c == ',' || c == '-'

def splitOnCharAux (d : Char) : Str → Str → List Str
  | [], acc => [acc.reverse]
  | c :: cs, acc =>
    if c = d then acc.reverse :: splitOnCharAux d cs []
    else splitOnCharAux d cs (c :: acc)

def splitOnChar (d : Char) (s : Str) : List Str := splitOnCharAux d s []

def splitTokensAux : Str → Str → List Str
  | [], acc => if acc.isEmpty then [] else [acc.reverse]
  | c :: cs, acc =>
    if isDelim c then
      if acc.isEmpty then splitTokensAux cs []
      else acc.reverse :: splitTokensAux cs []
    else splitTokensAux cs (c :: acc)

def splitTokens (s : Str) : List Str := splitTokensAux s []

/-- Python string comparison `<=` (lexicographic on byte values), used by
`sorted`. -/
def strLeB : Str → Str → Bool
  | [], _ => true
  | _ :: _, [] => false
  | c :: cs, d :: ds =>
    if c.toNat < d.toNat then true
    else if d.toNat < c.toNat then false
    else strLeB cs ds

/-- `sorted(tokens)`: ascending stable sort by Python string comparison. -/
def sortTokens (ts : List Str) : List Str :=
  List.insertionSort (fun x y => strLeB x y = true) ts

/-- `' '.join(tokens)` -/
def joinSpace (ts : List Str) : Str := List.intercalate [' '] ts

/-- `''.join([w[0] if w else '' for w in tokens])` -/
def acronym (ts : List Str) : Str := (ts.map (fun w => w.take 1)).flatten

/-! ### difflib.SequenceMatcher (Python 2.7, no junk)

`find_longest_match` runs a dynamic program: for each index `i` of `a`
(rows, in increasing order) and each position `j` of `a[i]` inside `b`
(in increasing order), `newj2len[j] = j2len.get(j-1, 0) + 1`, keeping the
first strictly-largest block seen: `if k > bestsize: best = (i-k+1, j-k+1, k)`.
The per-row dictionary is modelled as a total function `ℕ → ℕ` defaulting
to `0`, exactly matching `dict.get(_, 0)`.  The junk-extension loops that
follow the DP are included (with no junk both non-junk loops run, the junk
loops are no-ops).  `autojunk` only acts when `len(b) >= 200` and is inert
for every string this development evaluates, so it is not modelled.
-/

def optCharEq (x y : Option Char) : Bool :=
  match x, y with
  | some c, some d => c == d
  | _, _ => false

/-- Positions `j` in `[blo, bhi)` with `b[j] == a[i]` (the `b2j` lookup
restricted by the `j < blo: continue` / `j >= bhi: break` guards),
in increasing order. -/
def posList (a b : Str) (i blo bhi : ℕ) : List ℕ :=
  (List.range' blo (bhi - blo)).filter (fun j => optCharEq (b.get? j) (a.get? i))

/-- One row of the DP (`for j in b2j.get(a[i], nothing): ...`).
`prev` is the previous row's `j2len`, `cur` the row being built.
`i + 1 - k` is Python's `i - k + 1` (the invariant `k ≤ i + 1` holds on all
reachable states). -/
def flmRow (i : ℕ) (prev : ℕ → ℕ) :
    List ℕ → (ℕ → ℕ) → ℕ × ℕ × ℕ → ((ℕ → ℕ) × (ℕ × ℕ × ℕ))
  | [], cur, best => (cur, best)
  | j :: js, cur, best =>
    let k := (if j = 0 then 0 else prev (j - 1)) + 1
    let cur' : ℕ → ℕ := fun x => if x = j then k else cur x
    let best' := if best.2.2 < k then (i + 1 - k, j + 1 - k, k) else best
    flmRow i prev js cur' best'

/-- The outer DP loop (`for i in xrange(alo, ahi): ...`). -/
def flmRows (a b : Str) (blo bhi : ℕ) :
    List ℕ → (ℕ → ℕ) → ℕ × ℕ × ℕ → ℕ × ℕ × ℕ
  | [], _, best => best
  | i :: is, prev, best =>
    let rb := flmRow i prev (posList a b i blo bhi) (fun _ => 0) best
    flmRows a b blo bhi is rb.1 rb.2

/-- Left extension loop:
`while besti > alo and bestj > blo and a[besti-1] == b[bestj-1]: ...`
(structural recursion on `besti`). -/
def extendLeft (a b : Str) (alo blo : ℕ) : ℕ → ℕ → ℕ → ℕ × ℕ × ℕ
  | 0, bestj, bestsize => (0, bestj, bestsize)
  | bi + 1, bestj, bestsize =>
    if alo < bi + 1 ∧ blo < bestj ∧ optCharEq (a.get? bi) (b.get? (bestj - 1)) then
      extendLeft a b alo blo bi (bestj - 1) (bestsize + 1)
    else (bi + 1, bestj, bestsize)

/-- Right extension loop:
`while besti+bestsize < ahi and bestj+bestsize < bhi and a[besti+bestsize] == b[bestj+bestsize]: bestsize += 1`,
run on fuel `ahi - (besti + bestsize)`, which is exactly the number of
iterations the loop guard permits. -/
def extendRightAux (a b : Str) (ahi bhi i j : ℕ) : ℕ → ℕ → ℕ
  | 0, k => k
  | fuel + 1, k =>
    if i + k < ahi ∧ j + k < bhi ∧ optCharEq (a.get? (i + k)) (b.get? (j + k)) then
      extendRightAux a b ahi bhi i j fuel (k + 1)
    else k

def extendRight (a b : Str) (ahi bhi i j k : ℕ) : ℕ :=
  extendRightAux a b ahi bhi i j (ahi - (i + k)) k

/-- `SequenceMatcher.find_longest_match(alo, ahi, blo, bhi)` without junk. -/
def find_longest_match (a b : Str) (alo ahi blo bhi : ℕ) : ℕ × ℕ × ℕ :=
  let d := flmRows a b blo bhi (List.range' alo (ahi - alo)) (fun _ => 0) (alo, blo, 0)
  let e := extendLeft a b alo blo d.1 d.2.1 d.2.2
  (e.1, e.2.1, extendRight a b ahi bhi e.1 e.2.1 e.2.2)

/-- Total size of all matching blocks (the `sum(size for _, _, size in
get_matching_blocks())` that `ratio` divides).  `get_matching_blocks`
recurses on the two flanks of the longest match; the recursion is run on
fuel `(ahi - alo) + (bhi - blo)`, which is sufficient because each flank
is strictly smaller in that measure. -/
def matchesTotalAux (a b : Str) : ℕ → ℕ → ℕ → ℕ → ℕ → ℕ
  | 0, _, _, _, _ => 0
  | fuel + 1, alo, ahi, blo, bhi =>
    match find_longest_match a b alo ahi blo bhi with
    | (i, j, k) =>
      if k = 0 then 0
      else matchesTotalAux a b fuel alo i blo j + k +
           matchesTotalAux a b fuel (i + k) ahi (j + k) bhi

def matchesTotal (a b : Str) (alo ahi blo bhi : ℕ) : ℕ :=
  matchesTotalAux a b ((ahi - alo) + (bhi - blo)) alo ahi blo bhi

/-- `SequenceMatcher(None, a, b).ratio() = 2.0 * M / T` with
`_calculate_ratio` returning `1.0` when `T == 0`. -/
def ratioQ (a b : Str) : ℚ :=
  if a.length + b.length = 0 then 1
  else 2 * (matchesTotal a b 0 a.length 0 b.length : ℚ) /
       ((a.length : ℚ) + (b.length : ℚ))

/-! ### LocationHelper.get_similarity -/

/-- `LocationHelper.get_similarity(a, b)`:
`max(ratio(a, b), ratio(a_sorted, b_sorted), ratio(a_acr, b), ratio(a, b_acr))`
after lowercasing and stripping, where `a_sorted` re-joins the
`re.split('\s+|,|-', a)` tokens in sorted order and `a_acr` is the acronym
of the tokens. -/
def get_similarity (a b : String) : ℚ :=
  let a0 := pyStrip (pyLower a.toList)
  let b0 := pyStrip (pyLower b.toList)
  let aT := splitTokens a0
  let bT := splitTokens b0
  let aS := joinSpace (sortTokens aT)
  let bS := joinSpace (sortTokens bT)
  let aA := pyLower (acronym aT)
  let bA := pyLower (acronym bT)
  max (max (ratioQ a0 b0) (ratioQ aS bS)) (max (ratioQ aA b0) (ratioQ a0 bA))

/-! ### Data model

`GMapsResult` is one entry of a placesearch/geocode `results` list (the
fields the helper reads: `place_id`, `geometry.location.lat/lng`,
`.get('name')`, `types`).  `PlaceDetails` is a place-details `result`
payload.  `LocationInfo` is the `location_info` dict built by
`construct_location_info_async`: every key that may be absent is an
`Option` field (`none` = key missing, or present with value `None` for
`name`, which the scorers treat identically: both raise on use). -/

structure AddressComponent where
  long_name : String
  short_name : String
  types : List String

structure PlaceDetails where
  address_components : List AddressComponent
  formatted_address : String

structure GMapsResult where
  place_id : String
  lat : ℚ
  lng : ℚ
  name : Option String
  types : List String

structure LocationInfo where
  place_id : Option String := none
  lat : Option ℚ := none
  lng : Option ℚ := none
  name : Option String := none
  types : List String := []
  street_number : Option String := none
  street : Option String := none
  city : Option String := none
  state_prov : Option String := none
  state_prov_short : Option String := none
  country : Option String := none
  country_short : Option String := none
  postal_code : Option String := none
  formatted_address : Option String := none
  place_details : Option PlaceDetails := none

structure Event where
  venue : String
  venue_address : String
  location : String

structure Team where
  name : String
  location : String

/-! ### LocationRecordBuilder: construct_location_info_async

The details fetch is passed in as its result (`Option PlaceDetails`,
`none` for a `None`/falsy result).  The `elif` chain over
`component['types']` becomes `applyComponent`; `has_city` is the `Bool`
component of the fold state. -/

def applyComponent (st : LocationInfo × Bool) (c : AddressComponent) : LocationInfo × Bool :=
  if "street_number" ∈ c.types then ({ st.1 with street_number := some c.long_name }, st.2)
  else if "route" ∈ c.types then ({ st.1 with street := some c.long_name }, st.2)
  else if "locality" ∈ c.types then ({ st.1 with city := some c.long_name }, true)
  else if "administrative_area_level_1" ∈ c.types then
    ({ st.1 with state_prov := some c.long_name, state_prov_short := some c.short_name }, st.2)
  else if "country" ∈ c.types then
    ({ st.1 with country := some c.long_name, country_short := some c.short_name }, st.2)
  else if "postal_code" ∈ c.types then ({ st.1 with postal_code := some c.long_name }, st.2)
  else st

def construct_location_info (g : GMapsResult) (details : Option PlaceDetails) : LocationInfo :=
  let base : LocationInfo :=
    { place_id := some g.place_id, lat := some g.lat, lng := some g.lng,
      name := g.name, types := g.types }
  match details with
  | none => base
  | some d =>
    let fb := d.address_components.foldl applyComponent (base, false)
    let info1 :=
      if fb.2 = false ∧ fb.1.state_prov.isSome then { fb.1 with city := fb.1.state_prov }
      else fb.1
    { info1 with formatted_address := some d.formatted_address, place_details := some d }

/-! ### CandidateScorer

`pow(x, 1.0/3)` is `Real.rpow`; the similarity values stay rational and
are cast.  A `none` result models the Python call raising
(`location_info['name']` is `None` so `.lower()` raises, or
`location_info['formatted_address']` is a missing key). -/

noncomputable def compute_event_location_score (query_name : String) (info : LocationInfo) :
    Option ℝ :=
  if "point_of_interest" ∈ info.types ∨ "premise" ∈ info.types then
    match info.name, info.formatted_address with
    | some n, some f =>
      some (((max (get_similarity query_name n) (get_similarity query_name f) : ℚ) : ℝ) ^
        ((1 : ℝ) / 3))
    | _, _ => none
  else some 0

noncomputable def compute_team_location_score (query_name : String) (info : LocationInfo) :
    Option ℝ :=
  match info.name with
  | none => none
  | some n =>
    let score := ((get_similarity query_name n : ℚ) : ℝ) ^ ((1 : ℝ) / 3)
    some (if "school" ∈ info.types ∨ "university" ∈ info.types then score
          else score * (0.7 : ℝ))

/-! ### LocationResolver: get_event_location_info / get_team_location_info

External collaborators are oracles: `geocode` returns the result list of
`google_maps_geocode_async(location).get_result()`, `search q ll t` the
result list of `google_maps_placesearch_async(q, ll, textsearch=t)`, and
`construct` is `construct_location_info_async` composed with the details
oracle.  Each resolver also returns the list of placesearch calls it
issued, `(query, textsearch)` in order; a `none` result models an
exception escaping the loop (a scorer raising). -/

def get_lat_lng (geocode : String → List GMapsResult) (location : String) : Option (ℚ × ℚ) :=
  match geocode location with
  | [] => none
  | r :: _ => some (r.lat, r.lng)

open scoped Classical in
/-- The inner `for i, place in enumerate(results_future.get_result()[:5])`
loop of `get_event_location_info`, from result index `i` and running best:
score, discount by `pow(0.7, j) * pow(0.7, i)`, return on a perfect score,
else keep the strictly better running best. -/
noncomputable def event_scan (construct : GMapsResult → LocationInfo) (query : String) (j : ℕ) :
    List GMapsResult → ℕ → LocationInfo × ℝ →
    Option ((LocationInfo × ℝ) ⊕ (LocationInfo × ℝ))
  | [], _, best => some (Sum.inr best)
  | place :: rest, i, best =>
    match compute_event_location_score query (construct place) with
    | none => none
    | some s =>
      let score := s * (0.7 : ℝ) ^ j * (0.7 : ℝ) ^ i
      if score = 1 then some (Sum.inl (construct place, score))
      else if best.2 < score then event_scan construct query j rest (i + 1) (construct place, score)
      else event_scan construct query j rest (i + 1) best

/-- The outer `for j, query in enumerate(possible_queries)` loop: per query
both a nearbysearch and a textsearch are issued, then the first five
results of each are scanned (`i` restarting at 0 for each list). -/
noncomputable def event_query_loop (search : String → ℚ × ℚ → Bool → List GMapsResult)
    (construct : GMapsResult → LocationInfo) (lat_lng : ℚ × ℚ) :
    List (ℕ × String) → LocationInfo × ℝ → List (String × Bool) →
    Option ((LocationInfo × ℝ) × List (String × Bool))
  | [], best, log => some (best, log)
  | (j, q) :: qs, best, log =>
    let log' := log ++ [(q, false), (q, true)]
    match event_scan construct q j ((search q lat_lng false).take 5) 0 best with
    | none => none
    | some (Sum.inl r) => some (r, log')
    | some (Sum.inr b1) =>
      match event_scan construct q j ((search q lat_lng true).take 5) 0 b1 with
      | none => none
      | some (Sum.inl r) => some (r, log')
      | some (Sum.inr b2) => event_query_loop search construct lat_lng qs b2 log'

/-- `possible_queries` of `get_event_location_info`: the venue (when
truthy), then, when a venue address is present, the space-joined address
lines from line 1 and from line 2 (`' '.join(split_address[1:])`,
`' '.join(split_address[2:])`). -/
def possible_queries (ev : Event) : List String :=
  let pq := if ev.venue ≠ "" then [ev.venue] else []
  if ev.venue_address ≠ "" then
    let split_address := (splitOnChar '\n' ev.venue_address.toList).map List.asString
    (pq ++ [(joinSpace ((split_address.drop 1).map String.toList)).asString]) ++
      [(joinSpace ((split_address.drop 2).map String.toList)).asString]
  else pq

/-- The space-joined venue-address lines from line `k` to the end
(`' '.join(split_address[k:])`), used to state what `possible_queries`
produces. -/
def addressTail (ev : Event) (k : ℕ) : String :=
  (joinSpace ((((splitOnChar '\n' ev.venue_address.toList).map List.asString).drop k).map
    String.toList)).asString

noncomputable def get_event_location_info (geocode : String → List GMapsResult)
    (search : String → ℚ × ℚ → Bool → List GMapsResult)
    (details : String → Option PlaceDetails) (ev : Event) :
    Option ((LocationInfo × ℝ) × List (String × Bool)) :=
  let queries := possible_queries ev
  match get_lat_lng geocode ev.location with
  | none => some ((({} : LocationInfo), 0), [])
  | some ll =>
    event_query_loop search (fun p => construct_location_info p (details p.place_id)) ll
      queries.enum (({} : LocationInfo), 0) []

/-- `count` of a character in a Python string (`s.count(c)` for the
`MAX_SPLIT` guards). -/
def countChar (s : String) (c : Char) : ℕ := s.toList.count c

/-- The sponsor/school name fragments of `get_team_location_info`:
last and first segments of the name split on `&` and on `/`, deduplicated
in append order, each guarded by `count('&') < 3 and count('/') < 3`. -/
def possible_names (name : String) : List String :=
  if name ≠ "" then
    let split1 := (splitOnChar '&' name.toList).map List.asString
    let split2 := (splitOnChar '/' name.toList).map List.asString
    let l1 := split1.getLastD ""
    let l2 := split2.getLastD ""
    let f1 := split1.headD ""
    let f2 := split2.headD ""
    let ns1 : List String :=
      if countChar l1 '&' < 3 ∧ countChar l1 '/' < 3 then [l1] else []
    let ns2 := if l2 ∉ ns1 ∧ countChar l2 '&' < 3 ∧ countChar l2 '/' < 3 then ns1 ++ [l2] else ns1
    let ns3 := if f1 ∉ ns2 ∧ countChar f1 '&' < 3 ∧ countChar f1 '/' < 3 then ns2 ++ [f1] else ns2
    if f2 ∉ ns3 ∧ countChar f2 '&' < 3 ∧ countChar f2 '/' < 3 then ns3 ++ [f2] else ns3
  else []

open scoped Classical in
/-- The inner result loop of `get_team_location_info`: discount by
`pow(0.7, i)` only. -/
noncomputable def team_scan (construct : GMapsResult → LocationInfo) (query : String) :
    List GMapsResult → ℕ → LocationInfo × ℝ →
    Option ((LocationInfo × ℝ) ⊕ (LocationInfo × ℝ))
  | [], _, best => some (Sum.inr best)
  | place :: rest, i, best =>
    match compute_team_location_score query (construct place) with
    | none => none
    | some s =>
      let score := s * (0.7 : ℝ) ^ i
      if score = 1 then some (Sum.inl (construct place, score))
      else if best.2 < score then team_scan construct query rest (i + 1) (construct place, score)
      else team_scan construct query rest (i + 1) best

/-- The `for name in possible_names` loop: one placesearch per name with
the given `textsearch` flag. -/
noncomputable def team_query_loop (search : String → ℚ × ℚ → Bool → List GMapsResult)
    (construct : GMapsResult → LocationInfo) (lat_lng : ℚ × ℚ) (textsearch : Bool) :
    List String → LocationInfo × ℝ → List (String × Bool) →
    Option ((LocationInfo × ℝ) × List (String × Bool))
  | [], best, log => some (best, log)
  | q :: qs, best, log =>
    let log' := log ++ [(q, textsearch)]
    match team_scan construct q ((search q lat_lng textsearch).take 5) 0 best with
    | none => none
    | some (Sum.inl r) => some (r, log')
    | some (Sum.inr b) => team_query_loop search construct lat_lng textsearch qs b log'

noncomputable def get_team_location_info (geocode : String → List GMapsResult)
    (search : String → ℚ × ℚ → Bool → List GMapsResult)
    (details : String → Option PlaceDetails) (team : Team) (textsearch : Bool) :
    Option ((LocationInfo × ℝ) × List (String × Bool)) :=
  let names := possible_names team.name
  match get_lat_lng geocode team.location with
  | none => some ((({} : LocationInfo), 0), [])
  | some ll =>
    team_query_loop search (fun p => construct_location_info p (details p.place_id)) ll
      textsearch names (({} : LocationInfo), 0) []

/-! ### GeoServiceClient boundary: the transport-level functions

Each function takes the outcome of the single `urlfetch` call it may make
(`Except Unit (FetchResult _)`: `.error ()` is a raised transport
exception, `content = none` a 200 body that `json.loads` rejects), the
memcache lookup for its key (`none` = miss), and the credential state
(`apiKey` is the process-wide `cls.GOOGLE_API_KEY`, `sitevar` the
`google.secrets` api_key, `none` = absent).  The second component of the
result records whether the HTTP request was issued. -/

structure FetchResult (α : Type) where
  status_code : ℕ
  content : Option α

structure SearchResponse where
  status : String
  results : List GMapsResult

structure DetailsResponse where
  status : String
  result : PlaceDetails

/-- `google_maps_placesearch_async`: missing credentials return `[]`
before any cache or network access; an empty query returns `[]` without a
request; a cached value is returned as-is; otherwise one request is
issued and any failure (transport exception, bad JSON, non-200 status,
non-OK payload status) leaves `results = None`, returned as `[]`. -/
def google_maps_placesearch (apiKey sitevar : Option String)
    (cached : Option (List GMapsResult)) (fetch : Except Unit (FetchResult SearchResponse))
    (query : String) : List GMapsResult × Bool :=
  match apiKey, sitevar with
  | none, none => ([], false)
  | _, _ =>
    if query = "" then ([], false)
    else
      match cached with
      | some r => (r, false)
      | none =>
        let results : Option (List GMapsResult) :=
          match fetch with
          | .error _ => none
          | .ok fr =>
            if fr.status_code = 200 then
              match fr.content with
              | none => none
              | some d => if d.status = "OK" then some d.results else none
            else none
        (results.getD [], true)

/-- `google_maps_place_details_async`: same credential gate as
placesearch; the result is `None` on any failure. -/
def google_maps_place_details (apiKey sitevar : Option String)
    (cached : Option PlaceDetails) (fetch : Except Unit (FetchResult DetailsResponse))
    (place_id : String) : Option PlaceDetails × Bool :=
  match apiKey, sitevar with
  | none, none => (none, false)
  | _, _ =>
    match cached with
    | some r => (some r, false)
    | none =>
      let result : Option PlaceDetails :=
        match fetch with
        | .error _ => none
        | .ok fr =>
          if fr.status_code = 200 then
            match fr.content with
            | none => none
            | some d => if d.status = "OK" then some d.result else none
          else none
      (result, true)

/-- `google_maps_geocode_async`: the cache is consulted first, an empty
location returns `[]` without a request; a missing `google.secrets`
sitevar only logs a warning (`"Missing sitevar: google.api_key. API calls
rate limited by IP..."`) and the request is still issued, without a key. -/
def google_maps_geocode (sitevar : Option String) (cached : Option (List GMapsResult))
    (fetch : Except Unit (FetchResult SearchResponse)) (location : String) :
    List GMapsResult × Bool :=
  match cached with
  | some r => (r, false)
  | none =>
    if location = "" then ([], false)
    else
      let results : Option (List GMapsResult) :=
        match fetch with
        | .error _ => none
        | .ok fr =>
          if fr.status_code = 200 then
            match fr.content with
            | none => none
            | some d => if d.status = "OK" then some d.results else none
          else none
      (results.getD [], true)

/-! ### TimezoneResolver: get_timezone_id

The `try` block wraps only `urlfetch.fetch`; `json.loads(tz_result.content)`
runs outside it, so a 200 response whose body is not valid JSON raises
`ValueError` out of the function — modelled as `.error ()`.  All other
failure modes return `.ok none`. -/

structure TzResponse where
  timeZoneId : Option String

def get_timezone_id (geocode : String → List GMapsResult) (sitevar : Option String)
    (fetch : Except Unit (FetchResult TzResponse)) (location : String)
    (lat_lng : Option (ℚ × ℚ)) : Except Unit (Option String) :=
  let coords : Option (ℚ × ℚ) :=
    match lat_lng with
    | some ll => some ll
    | none => get_lat_lng geocode location
  match coords with
  | none => .ok none
  | some _ =>
    match fetch with
    | .error _ => .ok none
    | .ok tz_result =>
      if tz_result.status_code ≠ 200 then .ok none
      else
        match tz_result.content with
        | none => .error ()
        | some tz_dict =>
          match tz_dict.timeZoneId with
          | none => .ok none
          | some tz => .ok (some tz)

/-! ### Spec-side query generator (for the refinement claim C4)

Modelled from the spec: QueryGenerator for events builds, after the venue
name, candidate queries by concatenating prefixes (first line; first two
lines) and suffixes (from line i to the end, for every i) of the address
line list, prefix-based slices before suffix-based slices, each distinct
resulting string becoming a candidate in order with duplicates skipped. -/

def dedupFirstAux : List String → List String → List String
  | _, [] => []
  | seen, x :: xs =>
    if x ∈ seen then dedupFirstAux seen xs else x :: dedupFirstAux (x :: seen) xs

def dedupFirst (l : List String) : List String := dedupFirstAux [] l

/-! Concrete fixtures used when evaluating the model at specific inputs. -/

/-- A candidate that the event scheme scores 1.0 against query "a". -/
def infoEventPerfect : LocationInfo :=
  { name := some "a", formatted_address := some "a", types := ["point_of_interest"] }

/-- A candidate that the team scheme scores 1.0 against query "a". -/
def infoTeamPerfect : LocationInfo := { name := some "a", types := ["school"] }

/-- An arbitrary raw search result (its payload is ignored by a constant
`construct` oracle). -/
def gmapsFixture : GMapsResult := ⟨"pid", 0, 0, none, []⟩

/-- Proof-side invariant for the DP state of `find_longest_match`: the
best block is either the untouched initial `(alo, blo, 0)` or a nonempty
block inside `[alo, m) × [blo, bhi)`. -/
def BestB (alo blo bhi : ℕ) (best : ℕ × ℕ × ℕ) (m : ℕ) : Prop :=
  best = (alo, blo, 0) ∨
    (0 < best.2.2 ∧ alo ≤ best.1 ∧ best.1 + best.2.2 ≤ m ∧
      blo ≤ best.2.1 ∧ best.2.1 + best.2.2 ≤ bhi)

def spec_event_queries (ev : Event) : List String :=
  let base := if ev.venue ≠ "" then [ev.venue] else []
  if ev.venue_address ≠ "" then
    let lines := (splitOnChar '\n' ev.venue_address.toList).map List.asString
    let joins := fun (ls : List String) => (joinSpace (ls.map String.toList)).asString
    let prefixSlices := [joins (lines.take 1), joins (lines.take 2)]
    let suffixSlices := (List.range lines.length).map (fun i => joins (lines.drop i))
    dedupFirst (base ++ prefixSlices ++ suffixSlices)
  else dedupFirst base

end LocationHelper

namespace LocationHelper

/-! ### Bounds for find_longest_match and the ratio -/

theorem posList_mem {a b : Str} {i blo bhi j : ℕ} (h : j ∈ posList a b i blo bhi) :
    blo ≤ j ∧ j < bhi := by
  unfold posList at h
  have h1 := (List.mem_filter.1 h).1
  have h2 := List.mem_range'_1.1 h1
  omega

theorem bestB_mono {alo blo bhi : ℕ} {best : ℕ × ℕ × ℕ} {m m' : ℕ}
    (h : BestB alo blo bhi best m) (hm : m ≤ m') : BestB alo blo bhi best m' := by
  rcases h with h | h
  · exact Or.inl h
  · exact Or.inr ⟨h.1, h.2.1, le_trans h.2.2.1 hm, h.2.2.2⟩

theorem flmRow_inv (alo blo bhi i : ℕ) (prev : ℕ → ℕ)
    (hi1 : alo ≤ i)
    (hprevJ : ∀ x, prev x ≤ x + 1 - blo) (hprevI : ∀ x, prev x ≤ i - alo) :
    ∀ (js : List ℕ) (cur : ℕ → ℕ) (best : ℕ × ℕ × ℕ),
    (∀ j ∈ js, blo ≤ j ∧ j < bhi) →
    (∀ x, cur x ≤ x + 1 - blo) → (∀ x, cur x ≤ i + 1 - alo) →
    BestB alo blo bhi best (i + 1) →
    (∀ x, (flmRow i prev js cur best).1 x ≤ x + 1 - blo) ∧
    (∀ x, (flmRow i prev js cur best).1 x ≤ i + 1 - alo) ∧
    BestB alo blo bhi (flmRow i prev js cur best).2 (i + 1) := by
  intro js
  induction js with
  | nil => intro cur best _ hcJ hcI hb; exact ⟨hcJ, hcI, hb⟩
  | cons j js ih =>
    intro cur best hjs hcJ hcI hb
    have hj := hjs j (List.mem_cons_self j js)
    simp only [flmRow]
    set k := (if j = 0 then 0 else prev (j - 1)) + 1 with hkdef
    have hk0 : 0 < k := by rw [hkdef]; omega
    have hkJ : k ≤ j + 1 - blo := by
      rw [hkdef]
      split
      · omega
      · have := hprevJ (j - 1); omega
    have hkI : k ≤ i + 1 - alo := by
      rw [hkdef]
      split
      · omega
      · have := hprevI (j - 1); omega
    apply ih
    · exact fun x hx => hjs x (List.mem_cons_of_mem j hx)
    · intro x
      by_cases hx : x = j
      · subst hx; rw [if_pos rfl]; exact hkJ
      · rw [if_neg hx]; exact hcJ x
    · intro x
      by_cases hx : x = j
      · subst hx; rw [if_pos rfl]; exact hkI
      · rw [if_neg hx]; exact hcI x
    · split
      · refine Or.inr ⟨?_, ?_, ?_, ?_, ?_⟩
        · show 0 < k; exact hk0
        · show alo ≤ i + 1 - k; omega
        · show (i + 1 - k) + k ≤ i + 1; omega
        · show blo ≤ j + 1 - k; omega
        · show (j + 1 - k) + k ≤ bhi; omega
      · exact hb

theorem flmRows_inv (a b : Str) (alo ahi blo bhi : ℕ) :
    ∀ (n r : ℕ) (prev : ℕ → ℕ) (best : ℕ × ℕ × ℕ),
    alo ≤ r → r + n = ahi →
    (∀ x, prev x ≤ x + 1 - blo) → (∀ x, prev x ≤ r - alo) →
    BestB alo blo bhi best r →
    BestB alo blo bhi (flmRows a b blo bhi (List.range' r n) prev best) ahi := by
  intro n
  induction n with
  | zero =>
    intro r prev best hr hrn hJ hI hb
    simp only [List.range'_zero, flmRows]
    exact bestB_mono hb (by omega)
  | succ n ih =>
    intro r prev best hr hrn hJ hI hb
    rw [List.range'_succ]
    simp only [flmRows]
    have hrow := flmRow_inv alo blo bhi r prev hr hJ hI
      (posList a b r blo bhi) (fun _ => 0) best
      (fun j hj => posList_mem hj) (fun x => Nat.zero_le _) (fun x => Nat.zero_le _)
      (bestB_mono hb (by omega))
    exact ih (r + 1) _ _ (by omega) (by omega) hrow.1
      (fun x => by have := hrow.2.1 x; omega) hrow.2.2

theorem extendLeft_inv (a b : Str) (alo blo bhi m : ℕ) :
    ∀ (bi bj k : ℕ),
    (bi = alo ∧ bj = blo ∧ k = 0) ∨
      (0 < k ∧ alo ≤ bi ∧ bi + k ≤ m ∧ blo ≤ bj ∧ bj + k ≤ bhi) →
    ((extendLeft a b alo blo bi bj k).1 = alo ∧ (extendLeft a b alo blo bi bj k).2.1 = blo ∧
        (extendLeft a b alo blo bi bj k).2.2 = 0) ∨
      (0 < (extendLeft a b alo blo bi bj k).2.2 ∧
        alo ≤ (extendLeft a b alo blo bi bj k).1 ∧
        (extendLeft a b alo blo bi bj k).1 + (extendLeft a b alo blo bi bj k).2.2 ≤ m ∧
        blo ≤ (extendLeft a b alo blo bi bj k).2.1 ∧
        (extendLeft a b alo blo bi bj k).2.1 + (extendLeft a b alo blo bi bj k).2.2 ≤ bhi) := by
  intro bi
  induction bi with
  | zero =>
    intro bj k h
    rcases h with ⟨h1, h2, h3⟩ | h
    · exact Or.inl ⟨h1, h2, h3⟩
    · exact Or.inr h
  | succ bi ih =>
    intro bj k h
    simp only [extendLeft]
    split
    · rename_i hcond
      apply ih
      rcases h with ⟨h1, _, _⟩ | h
      · omega
      · exact Or.inr ⟨by omega, by omega, by omega, by omega, by omega⟩
    · rcases h with ⟨h1, h2, h3⟩ | h
      · exact Or.inl ⟨h1, h2, h3⟩
      · exact Or.inr h

theorem extendRightAux_inv (a b : Str) (ahi bhi i j : ℕ) :
    ∀ (fuel k : ℕ), (0 < k → i + k ≤ ahi ∧ j + k ≤ bhi) →
    (0 < extendRightAux a b ahi bhi i j fuel k →
      i + extendRightAux a b ahi bhi i j fuel k ≤ ahi ∧
      j + extendRightAux a b ahi bhi i j fuel k ≤ bhi) := by
  intro fuel
  induction fuel with
  | zero => intro k h; exact h
  | succ fuel ih =>
    intro k h
    simp only [extendRightAux]
    split
    · rename_i hcond
      exact ih (k + 1) (fun _ => by omega)
    · exact h

theorem flm_bounds (a b : Str) (alo ahi blo bhi : ℕ)
    (h : (find_longest_match a b alo ahi blo bhi).2.2 ≠ 0) :
    alo ≤ (find_longest_match a b alo ahi blo bhi).1 ∧
    (find_longest_match a b alo ahi blo bhi).1 +
      (find_longest_match a b alo ahi blo bhi).2.2 ≤ ahi ∧
    blo ≤ (find_longest_match a b alo ahi blo bhi).2.1 ∧
    (find_longest_match a b alo ahi blo bhi).2.1 +
      (find_longest_match a b alo ahi blo bhi).2.2 ≤ bhi := by
  have hd : BestB alo blo bhi
      (flmRows a b blo bhi (List.range' alo (ahi - alo)) (fun _ => 0) (alo, blo, 0)) ahi := by
    by_cases hle : alo ≤ ahi
    · exact flmRows_inv a b alo ahi blo bhi (ahi - alo) alo (fun _ => 0) (alo, blo, 0)
        le_rfl (by omega) (fun x => Nat.zero_le _) (fun x => Nat.zero_le _) (Or.inl rfl)
    · have : ahi - alo = 0 := by omega
      rw [this]
      simp only [List.range'_zero, flmRows]
      exact Or.inl rfl
  set d := flmRows a b blo bhi (List.range' alo (ahi - alo)) (fun _ => 0) (alo, blo, 0) with hdset
  have hde : (d.1 = alo ∧ d.2.1 = blo ∧ d.2.2 = 0) ∨
      (0 < d.2.2 ∧ alo ≤ d.1 ∧ d.1 + d.2.2 ≤ ahi ∧ blo ≤ d.2.1 ∧ d.2.1 + d.2.2 ≤ bhi) := by
    rcases hd with h1 | h1
    · exact Or.inl ⟨by rw [h1], by rw [h1], by rw [h1]⟩
    · exact Or.inr h1
  have hel := extendLeft_inv a b alo blo bhi ahi d.1 d.2.1 d.2.2 hde
  set e := extendLeft a b alo blo d.1 d.2.1 d.2.2 with heset
  have he1 : alo ≤ e.1 := by
    rcases hel with h1 | h1
    · exact le_of_eq h1.1.symm
    · exact h1.2.1
  have he2 : blo ≤ e.2.1 := by
    rcases hel with h1 | h1
    · exact le_of_eq h1.2.1.symm
    · exact h1.2.2.2.1
  have her := extendRightAux_inv a b ahi bhi e.1 e.2.1 (ahi - (e.1 + e.2.2)) e.2.2
    (by
      intro hk
      rcases hel with h1 | h1
      · omega
      · exact ⟨h1.2.2.1, h1.2.2.2.2⟩)
  have hflm : find_longest_match a b alo ahi blo bhi =
      (e.1, e.2.1, extendRight a b ahi bhi e.1 e.2.1 e.2.2) := by
    simp only [find_longest_match, ← hdset, ← heset]
  rw [hflm] at h ⊢
  simp only [extendRight] at h ⊢
  have := her (by omega)
  exact ⟨he1, this.1, he2, this.2⟩

theorem matchesTotalAux_le_left (a b : Str) :
    ∀ (fuel alo ahi blo bhi : ℕ), matchesTotalAux a b fuel alo ahi blo bhi ≤ ahi - alo := by
  intro fuel
  induction fuel with
  | zero => intro alo ahi blo bhi; simp [matchesTotalAux]
  | succ fuel ih =>
    intro alo ahi blo bhi
    rcases hflm : find_longest_match a b alo ahi blo bhi with ⟨i, j, k⟩
    simp only [matchesTotalAux, hflm]
    by_cases hk : k = 0
    · simp [hk]
    · rw [if_neg hk]
      have hb := flm_bounds a b alo ahi blo bhi (by rw [hflm]; exact hk)
      rw [hflm] at hb
      have h1 := ih alo i blo j
      have h2 := ih (i + k) ahi (j + k) bhi
      simp only at hb
      omega

theorem matchesTotalAux_le_right (a b : Str) :
    ∀ (fuel alo ahi blo bhi : ℕ), matchesTotalAux a b fuel alo ahi blo bhi ≤ bhi - blo := by
  intro fuel
  induction fuel with
  | zero => intro alo ahi blo bhi; simp [matchesTotalAux]
  | succ fuel ih =>
    intro alo ahi blo bhi
    rcases hflm : find_longest_match a b alo ahi blo bhi with ⟨i, j, k⟩
    simp only [matchesTotalAux, hflm]
    by_cases hk : k = 0
    · simp [hk]
    · rw [if_neg hk]
      have hb := flm_bounds a b alo ahi blo bhi (by rw [hflm]; exact hk)
      rw [hflm] at hb
      have h1 := ih alo i blo j
      have h2 := ih (i + k) ahi (j + k) bhi
      simp only at hb
      omega

theorem ratioQ_nonneg (a b : Str) : 0 ≤ ratioQ a b := by
  unfold ratioQ
  split
  · norm_num
  · positivity

theorem ratioQ_le_one (a b : Str) : ratioQ a b ≤ 1 := by
  unfold ratioQ
  split
  · norm_num
  · rename_i h
    have h1 := matchesTotalAux_le_left a b (a.length - 0 + (b.length - 0)) 0 a.length 0 b.length
    have h2 := matchesTotalAux_le_right a b (a.length - 0 + (b.length - 0)) 0 a.length 0 b.length
    have hpos : (0 : ℚ) < (a.length : ℚ) + (b.length : ℚ) := by
      have : 0 < a.length + b.length := Nat.pos_of_ne_zero h
      exact_mod_cast this
    rw [div_le_one hpos]
    have : 2 * matchesTotal a b 0 a.length 0 b.length ≤ a.length + b.length := by
      unfold matchesTotal; omega
    calc 2 * (matchesTotal a b 0 a.length 0 b.length : ℚ)
        = ((2 * matchesTotal a b 0 a.length 0 b.length : ℕ) : ℚ) := by push_cast; ring
      _ ≤ ((a.length + b.length : ℕ) : ℚ) := by exact_mod_cast this
      _ = (a.length : ℚ) + (b.length : ℚ) := by push_cast; ring

/-! ### The ratio of a string with itself is 1 -/

theorem flmRow_append (i : ℕ) (prev : ℕ → ℕ) (l₁ l₂ : List ℕ) :
    ∀ (cur : ℕ → ℕ) (best : ℕ × ℕ × ℕ),
    flmRow i prev (l₁ ++ l₂) cur best =
      flmRow i prev l₂ (flmRow i prev l₁ cur best).1 (flmRow i prev l₁ cur best).2 := by
  induction l₁ with
  | nil => intro cur best; rfl
  | cons j js ih =>
    intro cur best
    simp only [List.cons_append, flmRow]
    exact ih _ _

theorem flmRow_skip (i : ℕ) (prev : ℕ → ℕ) :
    ∀ (js : List ℕ) (cur : ℕ → ℕ) (best : ℕ × ℕ × ℕ),
    (∀ j ∈ js, (if j = 0 then 0 else prev (j - 1)) + 1 ≤ best.2.2) →
    (flmRow i prev js cur best).2 = best ∧
    ∀ x, x ∉ js → (flmRow i prev js cur best).1 x = cur x := by
  intro js
  induction js with
  | nil => intro cur best _; exact ⟨rfl, fun x _ => rfl⟩
  | cons j js ih =>
    intro cur best h
    simp only [flmRow]
    have hle := h j (List.mem_cons_self j js)
    rw [if_neg (show ¬ best.2.2 < (if j = 0 then 0 else prev (j - 1)) + 1 from by omega)]
    have hrec := ih (fun x => if x = j then (if j = 0 then 0 else prev (j - 1)) + 1 else cur x)
      best (fun x hx => h x (List.mem_cons_of_mem j hx))
    refine ⟨hrec.1, fun x hx => ?_⟩
    have hxj : x ≠ j := fun hc => hx (hc ▸ List.mem_cons_self j js)
    have hxjs : x ∉ js := fun hc => hx (List.mem_cons_of_mem j hc)
    rw [hrec.2 x hxjs]
    simp [hxj]

theorem posList_self_split (a : Str) (alo ahi r : ℕ) (h1 : alo ≤ r) (h2 : r < ahi)
    (h3 : ahi ≤ a.length) :
    ∃ js₁ js₂, posList a a r alo ahi = js₁ ++ r :: js₂ ∧
      (∀ j ∈ js₁, alo ≤ j ∧ j < r) ∧ (∀ j ∈ js₂, r < j ∧ j < ahi) := by
  refine ⟨(List.range' alo (r - alo)).filter (fun j => optCharEq (a.get? j) (a.get? r)),
    (List.range' (r + 1) (ahi - r - 1)).filter (fun j => optCharEq (a.get? j) (a.get? r)),
    ?_, ?_, ?_⟩
  · unfold posList
    have e2 : alo + (r - alo) = r := by omega
    have hsplitrange :
        List.range' alo (ahi - alo) = List.range' alo (r - alo) ++ List.range' r (ahi - r) := by
      have h := List.range'_append_1 alo (r - alo) (ahi - r)
      rw [e2] at h
      rw [show (ahi - r) + (r - alo) = ahi - alo from by omega] at h
      exact h.symm
    have hrsucc : List.range' r (ahi - r) = r :: List.range' (r + 1) (ahi - r - 1) := by
      conv_lhs => rw [show ahi - r = (ahi - r - 1) + 1 from by omega]
      rw [List.range'_succ]
    have hpr : optCharEq (a.get? r) (a.get? r) = true := by
      have hr : r < a.length := by omega
      have hc := List.get?_eq_get hr
      rw [hc]
      simp [optCharEq]
    rw [hsplitrange, List.filter_append, hrsucc, List.filter_cons, if_pos hpr]
  · intro j hj
    have hm := List.mem_range'_1.1 (List.mem_filter.1 hj).1
    omega
  · intro j hj
    have hm := List.mem_range'_1.1 (List.mem_filter.1 hj).1
    omega

theorem flmRow_self_diag (a : Str) (alo ahi r : ℕ) (prev cur0 : ℕ → ℕ)
    (h1 : alo ≤ r) (h2 : r < ahi) (h3 : ahi ≤ a.length)
    (hprevJ : ∀ x, prev x ≤ x + 1 - alo)
    (hprevI : ∀ x, prev x ≤ r - alo)
    (hdiag : (if r = 0 then 0 else prev (r - 1)) + 1 = r + 1 - alo) :
    (flmRow r prev (posList a a r alo ahi) cur0 (alo, alo, r - alo)).2 =
      (alo, alo, r + 1 - alo) ∧
    (flmRow r prev (posList a a r alo ahi) cur0 (alo, alo, r - alo)).1 r = r + 1 - alo := by
  obtain ⟨js₁, js₂, hsplit, hjs₁, hjs₂⟩ := posList_self_split a alo ahi r h1 h2 h3
  rw [hsplit, flmRow_append]
  have hs1 := flmRow_skip r prev js₁ cur0 (alo, alo, r - alo) (fun j hj => by
    have hjr := hjs₁ j hj
    show (if j = 0 then 0 else prev (j - 1)) + 1 ≤ r - alo
    split
    · omega
    · have := hprevJ (j - 1); omega)
  rw [hs1.1]
  simp only [flmRow, hdiag]
  have hlt : (alo, alo, r - alo).2.2 < r + 1 - alo := by show r - alo < r + 1 - alo; omega
  rw [if_pos hlt]
  have harith : r + 1 - (r + 1 - alo) = alo := by omega
  rw [harith]
  have hs2 := flmRow_skip r prev js₂
    (fun x => if x = r then r + 1 - alo else (flmRow r prev js₁ cur0 (alo, alo, r - alo)).1 x)
    (alo, alo, r + 1 - alo) (fun j hj => by
      have hjr := hjs₂ j hj
      split
      · omega
      · have := hprevI (j - 1); show prev (j - 1) + 1 ≤ (alo, alo, r + 1 - alo).2.2; show prev (j - 1) + 1 ≤ r + 1 - alo; omega)
  refine ⟨hs2.1, ?_⟩
  have hrns : r ∉ js₂ := fun hc => absurd (hjs₂ r hc).1 (lt_irrefl r)
  rw [hs2.2 r hrns]
  simp

theorem flmRows_self (a : Str) (alo ahi : ℕ) (h3 : ahi ≤ a.length) :
    ∀ (n r : ℕ) (prev : ℕ → ℕ),
    alo ≤ r → r + n = ahi →
    (∀ x, prev x ≤ x + 1 - alo) → (∀ x, prev x ≤ r - alo) →
    ((if r = 0 then 0 else prev (r - 1)) + 1 = r + 1 - alo) →
    flmRows a a alo ahi (List.range' r n) prev (alo, alo, r - alo) = (alo, alo, ahi - alo) := by
  intro n
  induction n with
  | zero =>
    intro r prev hr hrn hJ hI hD
    simp only [List.range'_zero, flmRows]
    have h : r = ahi := by omega
    rw [h]
  | succ n ih =>
    intro r prev hr hrn hJ hI hD
    rw [List.range'_succ]
    simp only [flmRows]
    have hd := flmRow_self_diag a alo ahi r prev (fun _ => 0) hr (by omega) h3 hJ hI hD
    have hbb : BestB alo alo ahi (alo, alo, r - alo) (r + 1) := by
      by_cases hra : r = alo
      · exact Or.inl (by rw [hra, Nat.sub_self])
      · refine Or.inr ⟨?_, le_rfl, ?_, le_rfl, ?_⟩
        · show 0 < r - alo; omega
        · show alo + (r - alo) ≤ r + 1; omega
        · show alo + (r - alo) ≤ ahi; omega
    have hinv := flmRow_inv alo alo ahi r prev hr hJ hI (posList a a r alo ahi)
      (fun _ => 0) (alo, alo, r - alo) (fun j hj => posList_mem hj)
      (fun x => Nat.zero_le _) (fun x => Nat.zero_le _) hbb
    rw [hd.1]
    have hD' : (if r + 1 = 0 then 0
        else (flmRow r prev (posList a a r alo ahi) (fun _ => 0) (alo, alo, r - alo)).1
          (r + 1 - 1)) + 1 = (r + 1) + 1 - alo := by
      rw [if_neg (Nat.succ_ne_zero r), Nat.add_sub_cancel, hd.2]
      omega
    exact ih (r + 1) _ (by omega) (by omega) hinv.1
      (fun x => hinv.2.1 x) hD'

theorem extendLeft_refl (a b : Str) (alo blo bj k : ℕ) :
    extendLeft a b alo blo alo bj k = (alo, bj, k) := by
  cases halo : alo with
  | zero => rfl
  | succ n =>
    simp only [extendLeft]
    rw [if_neg (by rintro ⟨hlt, -, -⟩; omega)]

theorem flm_empty (a b : Str) (alo blo bhi : ℕ) :
    find_longest_match a b alo alo blo bhi = (alo, blo, 0) := by
  have hfuel : alo - (alo + 0) = 0 := by omega
  simp only [find_longest_match, Nat.sub_self, List.range'_zero, flmRows, extendLeft_refl,
    extendRight, hfuel, extendRightAux]

theorem matchesTotalAux_empty (a b : Str) (fuel alo blo bhi : ℕ) :
    matchesTotalAux a b fuel alo alo blo bhi = 0 := by
  cases fuel with
  | zero => rfl
  | succ f => simp [matchesTotalAux, flm_empty]

theorem flm_self (a : Str) (alo ahi : ℕ) (h1 : alo ≤ ahi) (h2 : ahi ≤ a.length) :
    find_longest_match a a alo ahi alo ahi = (alo, alo, ahi - alo) := by
  have hrows : flmRows a a alo ahi (List.range' alo (ahi - alo)) (fun _ => 0) (alo, alo, 0) =
      (alo, alo, ahi - alo) := by
    rcases Nat.lt_or_ge alo ahi with hlt | hge
    · have h := flmRows_self a alo ahi h2 (ahi - alo) alo (fun _ => 0) le_rfl (by omega)
        (fun x => Nat.zero_le _) (fun x => Nat.zero_le _)
        (by
          show (if alo = 0 then 0 else (0 : ℕ)) + 1 = alo + 1 - alo
          split <;> omega)
      rw [show ((alo, alo, (0 : ℕ)) : ℕ × ℕ × ℕ) = (alo, alo, alo - alo) from by
        rw [Nat.sub_self]]
      exact h
    · have h : ahi - alo = 0 := by omega
      rw [h, List.range'_zero]
      rfl
  have hfuel : ahi - (alo + (ahi - alo)) = 0 := by omega
  simp only [find_longest_match, hrows, extendLeft_refl, extendRight, hfuel, extendRightAux]

theorem matchesTotal_self (a : Str) : matchesTotal a a 0 a.length 0 a.length = a.length := by
  unfold matchesTotal
  rcases Nat.eq_zero_or_pos a.length with h0 | hpos
  · rw [h0]; rfl
  · have hfuel : (a.length - 0) + (a.length - 0) = (2 * a.length - 1) + 1 := by omega
    rw [hfuel]
    simp only [matchesTotalAux, flm_self a 0 a.length (Nat.zero_le _) le_rfl]
    rw [if_neg (by omega)]
    have h0add : 0 + (a.length - 0) = a.length := by omega
    rw [h0add, matchesTotalAux_empty, matchesTotalAux_empty]
    omega

theorem ratioQ_self (a : Str) : ratioQ a a = 1 := by
  unfold ratioQ
  rcases Nat.eq_zero_or_pos a.length with h0 | hpos
  · rw [if_pos (by omega)]
  · rw [if_neg (by omega), matchesTotal_self]
    have hne : ((a.length : ℚ) + (a.length : ℚ)) ≠ 0 := by
      have h : (0 : ℚ) < (a.length : ℚ) + (a.length : ℚ) := by
        have := Nat.add_pos_left hpos a.length
        exact_mod_cast this
      exact ne_of_gt h
    rw [div_eq_one_iff_eq hne]
    ring

/-! ### Properties of get_similarity -/

theorem get_similarity_le_one (a b : String) : get_similarity a b ≤ 1 := by
  unfold get_similarity
  exact max_le (max_le (ratioQ_le_one _ _) (ratioQ_le_one _ _))
    (max_le (ratioQ_le_one _ _) (ratioQ_le_one _ _))

theorem get_similarity_nonneg (a b : String) : 0 ≤ get_similarity a b := by
  unfold get_similarity
  exact le_trans (ratioQ_nonneg _ _) (le_trans (le_max_left _ _) (le_max_left _ _))

theorem get_similarity_self (s : String) : get_similarity s s = 1 := by
  refine le_antisymm (get_similarity_le_one s s) ?_
  unfold get_similarity
  calc (1 : ℚ) = ratioQ (pyStrip (pyLower s.toList)) (pyStrip (pyLower s.toList)) :=
        (ratioQ_self _).symm
    _ ≤ _ := le_trans (le_max_left _ _) (le_max_left _ _)

/-- Helper for evaluating `ratioQ` on concrete strings: the `ℕ`-valued
pieces are computed by `decide`, the `ℚ` division by `norm_num`. -/
theorem ratioQ_eval (a b : Str) (m la lb : ℕ) (hla : a.length = la) (hlb : b.length = lb)
    (hm : matchesTotal a b 0 la 0 lb = m) (h0 : la + lb ≠ 0) :
    ratioQ a b = 2 * (m : ℚ) / ((la : ℚ) + (lb : ℚ)) := by
  unfold ratioQ
  rw [hla, hlb, if_neg h0, hm]

/-! ### Helper facts about the scorers -/

theorem simR_nonneg (q n : String) : (0 : ℝ) ≤ ((get_similarity q n : ℚ) : ℝ) := by
  exact_mod_cast get_similarity_nonneg q n

theorem simR_le_one (q n : String) : ((get_similarity q n : ℚ) : ℝ) ≤ 1 := by
  exact_mod_cast get_similarity_le_one q n

theorem applyComponent_preserves (st : LocationInfo × Bool) (c : AddressComponent)
    (hnl : "locality" ∉ c.types) :
    (applyComponent st c).1.city = st.1.city ∧ (applyComponent st c).2 = st.2 := by
  unfold applyComponent
  by_cases h1 : "street_number" ∈ c.types
  · rw [if_pos h1]; exact ⟨rfl, rfl⟩
  rw [if_neg h1]
  by_cases h2 : "route" ∈ c.types
  · rw [if_pos h2]; exact ⟨rfl, rfl⟩
  rw [if_neg h2, if_neg hnl]
  by_cases h4 : "administrative_area_level_1" ∈ c.types
  · rw [if_pos h4]; exact ⟨rfl, rfl⟩
  rw [if_neg h4]
  by_cases h5 : "country" ∈ c.types
  · rw [if_pos h5]; exact ⟨rfl, rfl⟩
  rw [if_neg h5]
  by_cases h6 : "postal_code" ∈ c.types
  · rw [if_pos h6]; exact ⟨rfl, rfl⟩
  rw [if_neg h6]
  exact ⟨rfl, rfl⟩

theorem applyComponent_fold_no_locality :
    ∀ (comps : List AddressComponent) (st : LocationInfo × Bool),
    (∀ c ∈ comps, "locality" ∉ c.types) → st.1.city = none → st.2 = false →
    (comps.foldl applyComponent st).1.city = none ∧ (comps.foldl applyComponent st).2 = false := by
  intro comps
  induction comps with
  | nil => exact fun st _ hc hf => ⟨hc, hf⟩
  | cons c cs ih =>
    intro st h hc hf
    simp only [List.foldl_cons]
    have hp := applyComponent_preserves st c (h c (List.mem_cons_self c cs))
    exact ih _ (fun x hx => h x (List.mem_cons_of_mem c hx)) (hp.1.trans hc) (hp.2.trans hf)

/-! ### Claim theorems -/

/-- Claim C1: in both the event and the team resolution loop, a candidate
whose rank-discounted score equals exactly 1.0 is returned immediately:
the inner scan returns that candidate's LocationInfo for every possible
tail of remaining results (so no further result is evaluated), and the
outer loop then returns it for every possible list of remaining queries,
with the issued-search log closing at the current query (so no further
query is issued). -/
theorem c1_perfect_score_short_circuits
    (construct : GMapsResult → LocationInfo) (search : String → ℚ × ℚ → Bool → List GMapsResult)
    (lat_lng : ℚ × ℚ) (q : String) (j i : ℕ) (p : GMapsResult) (s : ℝ)
    (rest : List GMapsResult) (best : LocationInfo × ℝ) (qs : List (ℕ × String))
    (qs' : List String) (log : List (String × Bool)) (textsearch : Bool) (r : LocationInfo × ℝ) :
    (compute_event_location_score q (construct p) = some s →
      s * (0.7 : ℝ) ^ j * (0.7 : ℝ) ^ i = 1 →
      event_scan construct q j (p :: rest) i best = some (Sum.inl (construct p, 1))) ∧
    (event_scan construct q j ((search q lat_lng false).take 5) 0 best = some (Sum.inl r) →
      event_query_loop search construct lat_lng ((j, q) :: qs) best log =
        some (r, log ++ [(q, false), (q, true)])) ∧
    (compute_team_location_score q (construct p) = some s → s * (0.7 : ℝ) ^ i = 1 →
      team_scan construct q (p :: rest) i best = some (Sum.inl (construct p, 1))) ∧
    (team_scan construct q ((search q lat_lng textsearch).take 5) 0 best = some (Sum.inl r) →
      team_query_loop search construct lat_lng textsearch (q :: qs') best log =
        some (r, log ++ [(q, textsearch)])) := by
  refine ⟨?_, ?_, ?_, ?_⟩
  · intro h1 h2
    simp only [event_scan, h1]
    rw [h2, if_pos rfl]
  · intro h
    simp only [event_query_loop, h]
  · intro h1 h2
    simp only [team_scan, h1]
    rw [h2, if_pos rfl]
  · intro h
    simp only [team_query_loop, h]

/-- Witness for C1 at a concrete input: a single query "a" whose only
search result scores exactly 1, for the event scheme (name and formatted
address equal to the query, point_of_interest type) and the team scheme
(name equal to the query, school type). -/
theorem c1_perfect_score_short_circuits_witness :
    (compute_event_location_score "a" infoEventPerfect = some 1 ∧
      (1 : ℝ) * (0.7 : ℝ) ^ (0 : ℕ) * (0.7 : ℝ) ^ (0 : ℕ) = 1 ∧
      event_query_loop (fun _ _ _ => [gmapsFixture]) (fun _ => infoEventPerfect) (0, 0)
        [(0, "a")] (({} : LocationInfo), 0) [] =
        some ((infoEventPerfect, 1), [("a", false), ("a", true)])) ∧
    (compute_team_location_score "a" infoTeamPerfect = some 1 ∧
      (1 : ℝ) * (0.7 : ℝ) ^ (0 : ℕ) = 1 ∧
      team_query_loop (fun _ _ _ => [gmapsFixture]) (fun _ => infoTeamPerfect) (0, 0) false
        ["a"] (({} : LocationInfo), 0) [] =
        some ((infoTeamPerfect, 1), [("a", false)])) := by
  have hev : compute_event_location_score "a" infoEventPerfect = some 1 := by
    unfold compute_event_location_score infoEventPerfect
    rw [if_pos (by decide : "point_of_interest" ∈ (["point_of_interest"] : List String) ∨
      "premise" ∈ (["point_of_interest"] : List String))]
    show some ((((max (get_similarity "a" "a") (get_similarity "a" "a")) : ℚ) : ℝ) ^
      ((1 : ℝ) / 3)) = some 1
    rw [get_similarity_self, max_self, Rat.cast_one, Real.one_rpow]
  have htm : compute_team_location_score "a" infoTeamPerfect = some 1 := by
    unfold compute_team_location_score infoTeamPerfect
    show some (if "school" ∈ (["school"] : List String) ∨
        "university" ∈ (["school"] : List String) then
        ((get_similarity "a" "a" : ℚ) : ℝ) ^ ((1 : ℝ) / 3)
      else ((get_similarity "a" "a" : ℚ) : ℝ) ^ ((1 : ℝ) / 3) * (0.7 : ℝ)) = some 1
    rw [if_pos (by decide : "school" ∈ (["school"] : List String) ∨
      "university" ∈ (["school"] : List String))]
    rw [get_similarity_self, Rat.cast_one, Real.one_rpow]
  have hnum : (1 : ℝ) * (0.7 : ℝ) ^ (0 : ℕ) * (0.7 : ℝ) ^ (0 : ℕ) = 1 := by norm_num
  have hnum2 : (1 : ℝ) * (0.7 : ℝ) ^ (0 : ℕ) = 1 := by norm_num
  have he1 := (c1_perfect_score_short_circuits (fun _ => infoEventPerfect)
    (fun _ _ _ => [gmapsFixture]) (0, 0) "a" 0 0 gmapsFixture 1 [] (({} : LocationInfo), 0)
    [] [] [] false (infoEventPerfect, 1)).1 hev hnum
  have he2 := (c1_perfect_score_short_circuits (fun _ => infoEventPerfect)
    (fun _ _ _ => [gmapsFixture]) (0, 0) "a" 0 0 gmapsFixture 1 [] (({} : LocationInfo), 0)
    [] [] [] false (infoEventPerfect, 1)).2.1 he1
  have ht1 := (c1_perfect_score_short_circuits (fun _ => infoTeamPerfect)
    (fun _ _ _ => [gmapsFixture]) (0, 0) "a" 0 0 gmapsFixture 1 [] (({} : LocationInfo), 0)
    [] [] [] false (infoTeamPerfect, 1)).2.2.1 htm hnum2
  have ht2 := (c1_perfect_score_short_circuits (fun _ => infoTeamPerfect)
    (fun _ _ _ => [gmapsFixture]) (0, 0) "a" 0 0 gmapsFixture 1 [] (({} : LocationInfo), 0)
    [] [] [] false (infoTeamPerfect, 1)).2.2.2 ht1
  exact ⟨⟨hev, hnum, he2⟩, htm, hnum2, ht2⟩

/-- Claim C2 counterexample: a candidate whose name, city, state/province,
country and postal code all equal the event's fields, but whose type tags
contain neither point_of_interest nor premise, scores 0, not 1.0, under
the event scheme. -/
theorem c2_event_score_zero_despite_field_match :
    compute_event_location_score "City Hall"
      { name := some "City Hall", city := some "Springfield",
        state_prov := some "Illinois", country := some "United States",
        postal_code := some "62701",
        formatted_address := some "City Hall, Springfield, IL 62701",
        types := ["locality"] } = some 0 ∧
    some (0 : ℝ) ≠ some (1 : ℝ) := by
  constructor
  · unfold compute_event_location_score
    rw [if_neg (by decide : ¬ ("point_of_interest" ∈ (["locality"] : List String) ∨
      "premise" ∈ (["locality"] : List String)))]
  · simp

/-- Claim C2 (amended): under the event scoring scheme, a candidate whose
type tags include point_of_interest or premise and whose name, city,
state/province, country and postal code each exactly equal the event's
corresponding fields is scored exactly 1.0 against the venue-name query;
the city, state, country and postal fields are not consulted by the
scorer (only the name — equal to the query — and the type gate matter). -/
theorem c2_event_score_perfect_amended (venue fa city st stS cty ctyS pc : String)
    (types : List String)
    (h : "point_of_interest" ∈ types ∨ "premise" ∈ types) :
    compute_event_location_score venue
      { name := some venue, formatted_address := some fa, city := some city,
        state_prov := some st, state_prov_short := some stS, country := some cty,
        country_short := some ctyS, postal_code := some pc, types := types } = some 1 := by
  unfold compute_event_location_score
  rw [if_pos h]
  show some ((((max (get_similarity venue venue) (get_similarity venue fa)) : ℚ) : ℝ) ^
    ((1 : ℝ) / 3)) = some 1
  rw [get_similarity_self, max_eq_left (get_similarity_le_one venue fa), Rat.cast_one,
    Real.one_rpow]

/-- Witness for the amended C2 at a concrete input. -/
theorem c2_event_score_perfect_amended_witness :
    ("point_of_interest" ∈ (["point_of_interest"] : List String) ∨
      "premise" ∈ (["point_of_interest"] : List String)) ∧
    compute_event_location_score "City Hall"
      { name := some "City Hall", formatted_address := some "City Hall, Springfield",
        city := some "Springfield", state_prov := some "Illinois",
        state_prov_short := some "IL", country := some "United States",
        country_short := some "US", postal_code := some "62701",
        types := ["point_of_interest"] } = some 1 :=
  ⟨by decide, c2_event_score_perfect_amended "City Hall" "City Hall, Springfield"
    "Springfield" "Illinois" "IL" "United States" "US" "62701" ["point_of_interest"]
    (by decide)⟩

/-- Claim C3 counterexample: two candidates identical except that one
carries the point_of_interest tag both score 0.7 under the team scheme
(the tag is irrelevant; the factor applied to non-school candidates is
0.7, not one half), so the tagless one does not score at most half of the
tagged one. -/
theorem c3_team_score_not_halved_without_poi :
    compute_team_location_score "a" { name := some "a", types := ["point_of_interest"] } =
      some (0.7 : ℝ) ∧
    compute_team_location_score "a" { name := some "a", types := [] } = some (0.7 : ℝ) ∧
    ¬ ((0.7 : ℝ) ≤ (1 / 2) * (0.7 : ℝ)) := by
  refine ⟨?_, ?_, by norm_num⟩
  · unfold compute_team_location_score
    show some (if "school" ∈ (["point_of_interest"] : List String) ∨
        "university" ∈ (["point_of_interest"] : List String) then
        ((get_similarity "a" "a" : ℚ) : ℝ) ^ ((1 : ℝ) / 3)
      else ((get_similarity "a" "a" : ℚ) : ℝ) ^ ((1 : ℝ) / 3) * (0.7 : ℝ)) = some (0.7 : ℝ)
    rw [if_neg (by decide : ¬ ("school" ∈ (["point_of_interest"] : List String) ∨
      "university" ∈ (["point_of_interest"] : List String)))]
    rw [get_similarity_self, Rat.cast_one, Real.one_rpow, one_mul]
  · unfold compute_team_location_score
    show some (if "school" ∈ ([] : List String) ∨ "university" ∈ ([] : List String) then
        ((get_similarity "a" "a" : ℚ) : ℝ) ^ ((1 : ℝ) / 3)
      else ((get_similarity "a" "a" : ℚ) : ℝ) ^ ((1 : ℝ) / 3) * (0.7 : ℝ)) = some (0.7 : ℝ)
    rw [if_neg (by decide : ¬ ("school" ∈ ([] : List String) ∨
      "university" ∈ ([] : List String)))]
    rw [get_similarity_self, Rat.cast_one, Real.one_rpow, one_mul]

/-- Claim C3 (amended): under the team scheme the multiplicative penalty
is 0.7 (not one half) and is keyed to the school/university tags (not
point_of_interest): an otherwise-identical candidate with neither school
nor university tag scores exactly 0.7 times one carrying such a tag, and
adding a point_of_interest tag never changes the score. -/
theorem c3_team_score_factor_amended (q : String) (base : LocationInfo)
    (T1 T2 : List String) (h1 : "school" ∉ T1 ∧ "university" ∉ T1)
    (h2 : "school" ∈ T2 ∨ "university" ∈ T2) :
    compute_team_location_score q { base with types := T1 } =
      (compute_team_location_score q { base with types := T2 }).map
        (fun x => x * (0.7 : ℝ)) ∧
    ∀ T : List String,
      compute_team_location_score q { base with types := "point_of_interest" :: T } =
        compute_team_location_score q { base with types := T } := by
  constructor
  · unfold compute_team_location_score
    cases hname : base.name with
    | none => rfl
    | some n =>
      show some (if "school" ∈ T1 ∨ "university" ∈ T1 then
          ((get_similarity q n : ℚ) : ℝ) ^ ((1 : ℝ) / 3)
        else ((get_similarity q n : ℚ) : ℝ) ^ ((1 : ℝ) / 3) * (0.7 : ℝ)) =
        (some (if "school" ∈ T2 ∨ "university" ∈ T2 then
          ((get_similarity q n : ℚ) : ℝ) ^ ((1 : ℝ) / 3)
        else ((get_similarity q n : ℚ) : ℝ) ^ ((1 : ℝ) / 3) * (0.7 : ℝ))).map
          (fun x => x * (0.7 : ℝ))
      rw [if_neg (not_or.mpr ⟨h1.1, h1.2⟩), if_pos h2]
      rfl
  · intro T
    unfold compute_team_location_score
    cases hname : base.name with
    | none => rfl
    | some n =>
      have hiff : ("school" ∈ "point_of_interest" :: T ∨
          "university" ∈ "point_of_interest" :: T) ↔
          ("school" ∈ T ∨ "university" ∈ T) := by
        simp only [List.mem_cons]
        constructor
        · rintro ((h | h) | (h | h))
          · exact absurd h (by decide)
          · exact Or.inl h
          · exact absurd h (by decide)
          · exact Or.inr h
        · rintro (h | h)
          · exact Or.inl (Or.inr h)
          · exact Or.inr (Or.inr h)
      show some (if "school" ∈ "point_of_interest" :: T ∨
          "university" ∈ "point_of_interest" :: T then
          ((get_similarity q n : ℚ) : ℝ) ^ ((1 : ℝ) / 3)
        else ((get_similarity q n : ℚ) : ℝ) ^ ((1 : ℝ) / 3) * (0.7 : ℝ)) =
        some (if "school" ∈ T ∨ "university" ∈ T then
          ((get_similarity q n : ℚ) : ℝ) ^ ((1 : ℝ) / 3)
        else ((get_similarity q n : ℚ) : ℝ) ^ ((1 : ℝ) / 3) * (0.7 : ℝ))
      rw [if_congr hiff rfl rfl]

/-- Witness for the amended C3 at a concrete input. -/
theorem c3_team_score_factor_amended_witness :
    ("school" ∉ ([] : List String) ∧ "university" ∉ ([] : List String)) ∧
    ("school" ∈ (["school"] : List String) ∨ "university" ∈ (["school"] : List String)) ∧
    compute_team_location_score "a" { name := some "a", types := ([] : List String) } =
      (compute_team_location_score "a" { name := some "a", types := ["school"] }).map
        (fun x => x * (0.7 : ℝ)) :=
  ⟨⟨by decide, by decide⟩, Or.inl (by decide),
    (c3_team_score_factor_amended "a" { name := some "a" } [] ["school"]
      ⟨by decide, by decide⟩ (Or.inl (by decide))).1⟩

/-- Claim C4 counterexample: on the spec's own example event the code
produces only the venue and the two suffix joins from lines 1 and 2; the
prefix-based slices demanded by the claim (such as "123 A St") are absent,
and the list differs from the spec-modelled generator's output. -/
theorem c4_query_list_missing_prefix_slices :
    possible_queries ⟨"Main Hall", "123 A St\nMain Hall\nSpringfield, IL", "Springfield"⟩ =
      ["Main Hall", "Main Hall Springfield, IL", "Springfield, IL"] ∧
    "123 A St" ∉ possible_queries
      ⟨"Main Hall", "123 A St\nMain Hall\nSpringfield, IL", "Springfield"⟩ ∧
    spec_event_queries ⟨"Main Hall", "123 A St\nMain Hall\nSpringfield, IL", "Springfield"⟩ ≠
      possible_queries ⟨"Main Hall", "123 A St\nMain Hall\nSpringfield, IL", "Springfield"⟩ := by
  refine ⟨by decide, by decide, by decide⟩

/-- Claim C4 (amended): the candidate query list begins with the venue
name when one is present, and when a venue address is present it
continues with exactly two space-joined suffix slices of the address
lines — from line 1 to the end and from line 2 to the end; no
prefix-based slices are generated and duplicates are not skipped. -/
theorem c4_event_queries_amended (ev : Event) :
    possible_queries ev =
      (if ev.venue ≠ "" then [ev.venue] else []) ++
      (if ev.venue_address ≠ "" then [addressTail ev 1, addressTail ev 2] else []) ∧
    (ev.venue ≠ "" → (possible_queries ev).head? = some ev.venue) := by
  constructor
  · by_cases h1 : ev.venue = "" <;> by_cases h2 : ev.venue_address = "" <;>
      simp [possible_queries, addressTail, h1, h2]
  · intro hv
    by_cases h2 : ev.venue_address = "" <;> simp [possible_queries, h2, hv]

/-- Witness for the amended C4 at a concrete input. -/
theorem c4_event_queries_amended_witness :
    ("V" : String) ≠ "" ∧
    (possible_queries ⟨"V", "A\nB", "L"⟩).head? = some "V" :=
  ⟨by decide, (c4_event_queries_amended ⟨"V", "A\nB", "L"⟩).2 (by decide)⟩

/-- Claim C7 counterexample: with no credential anywhere (no cached key,
no google.secrets sitevar), a geocode call on a cache miss still issues
its HTTP request and, when the transport answers OK, returns a non-empty
result list — geocode does not degrade to an empty result. -/
theorem c7_geocode_requests_without_credentials :
    (google_maps_geocode none none
      (.ok ⟨200, some ⟨"OK", [gmapsFixture]⟩⟩) "Springfield").2 = true ∧
    (google_maps_geocode none none
      (.ok ⟨200, some ⟨"OK", [gmapsFixture]⟩⟩) "Springfield").1 ≠ [] := by
  have h : google_maps_geocode none none
      (.ok ⟨200, some ⟨"OK", [gmapsFixture]⟩⟩) "Springfield" = ([gmapsFixture], true) := rfl
  rw [h]
  exact ⟨rfl, List.cons_ne_nil _ _⟩

/-- Claim C7 (amended): when no API credential is available (none cached
and the secret source has none), place search and place details return an
empty/absent result with a logged warning without issuing the request;
geocode, by contrast, only logs a warning and still issues the request
without an API key. -/
theorem c7_credential_gate_amended (cached : Option (List GMapsResult))
    (fetch : Except Unit (FetchResult SearchResponse)) (query : String)
    (cachedD : Option PlaceDetails) (fetchD : Except Unit (FetchResult DetailsResponse))
    (pid : String) (fetchG : Except Unit (FetchResult SearchResponse)) (location : String) :
    google_maps_placesearch none none cached fetch query = ([], false) ∧
    google_maps_place_details none none cachedD fetchD pid = (none, false) ∧
    (location ≠ "" → (google_maps_geocode none none fetchG location).2 = true) := by
  refine ⟨rfl, rfl, fun hloc => ?_⟩
  unfold google_maps_geocode
  rw [if_neg hloc]

/-- Witness for the amended C7 at a concrete input. -/
theorem c7_credential_gate_amended_witness :
    google_maps_placesearch none none none (.error ()) "Main Hall" = ([], false) ∧
    google_maps_place_details none none none (.error ()) "pid" = (none, false) ∧
    ("Springfield" : String) ≠ "" ∧
    (google_maps_geocode none none (.error ()) "Springfield").2 = true := by
  have h := c7_credential_gate_amended none (.error ()) "Main Hall" none (.error ()) "pid"
    (.error ()) "Springfield"
  exact ⟨h.1, h.2.1, by decide, h.2.2 (by decide)⟩

/-- Claim C5: `get_similarity` is not commutative.  At a = "abba",
b = "baba" the underlying difflib ratio is order-dependent (the
tie-breaking of `find_longest_match` picks different blocks), giving
similarity 3/4 one way and 1/2 the other.  The code therefore violates
the spec's commutativity contract at this input. -/
theorem c5_similarity_not_commutative_at_abba_baba :
    get_similarity "abba" "baba" = 3 / 4 ∧ get_similarity "baba" "abba" = 1 / 2 ∧
    get_similarity "abba" "baba" ≠ get_similarity "baba" "abba" := by
  have hA : pyStrip (pyLower "abba".toList) = "abba".toList := by decide
  have hB : pyStrip (pyLower "baba".toList) = "baba".toList := by decide
  have hSA : joinSpace (sortTokens (splitTokens "abba".toList)) = "abba".toList := by decide
  have hSB : joinSpace (sortTokens (splitTokens "baba".toList)) = "baba".toList := by decide
  have hAA : pyLower (acronym (splitTokens "abba".toList)) = ['a'] := by decide
  have hAB : pyLower (acronym (splitTokens "baba".toList)) = ['b'] := by decide
  have r1 : ratioQ "abba".toList "baba".toList = 3 / 4 := by
    rw [ratioQ_eval "abba".toList "baba".toList 3 4 4 (by decide) (by decide) (by decide)
      (by decide)]
    norm_num
  have r2 : ratioQ "baba".toList "abba".toList = 1 / 2 := by
    rw [ratioQ_eval "baba".toList "abba".toList 2 4 4 (by decide) (by decide) (by decide)
      (by decide)]
    norm_num
  have r3 : ratioQ ['a'] "baba".toList = 2 / 5 := by
    rw [ratioQ_eval ['a'] "baba".toList 1 1 4 (by decide) (by decide) (by decide) (by decide)]
    norm_num
  have r4 : ratioQ "abba".toList ['b'] = 2 / 5 := by
    rw [ratioQ_eval "abba".toList ['b'] 1 4 1 (by decide) (by decide) (by decide) (by decide)]
    norm_num
  have r5 : ratioQ ['b'] "abba".toList = 2 / 5 := by
    rw [ratioQ_eval ['b'] "abba".toList 1 1 4 (by decide) (by decide) (by decide) (by decide)]
    norm_num
  have r6 : ratioQ "baba".toList ['a'] = 2 / 5 := by
    rw [ratioQ_eval "baba".toList ['a'] 1 4 1 (by decide) (by decide) (by decide) (by decide)]
    norm_num
  have v1 : get_similarity "abba" "baba" = 3 / 4 := by
    simp only [get_similarity]
    rw [hA, hB, hSA, hSB, hAA, hAB, r1, r3, r4]
    rw [max_self, max_self, max_eq_left (by norm_num : (2 / 5 : ℚ) ≤ 3 / 4)]
  have v2 : get_similarity "baba" "abba" = 1 / 2 := by
    simp only [get_similarity]
    rw [hA, hB, hSA, hSB, hAA, hAB, r2, r5, r6]
    rw [max_self, max_self, max_eq_left (by norm_num : (2 / 5 : ℚ) ≤ 1 / 2)]
  exact ⟨v1, v2, by rw [v1, v2]; norm_num⟩

/-- Claim C6: when the place-details address components contain no
locality component, the constructed LocationInfo's city field equals its
state/province (long-form) field — either both were never set, or the
no-city special case copied state_prov into city. -/
theorem c6_no_locality_city_equals_state (g : GMapsResult) (d : PlaceDetails)
    (hnl : ∀ c ∈ d.address_components, "locality" ∉ c.types)
    (hadmin : ∃ c ∈ d.address_components, "administrative_area_level_1" ∈ c.types) :
    (construct_location_info g (some d)).city =
      (construct_location_info g (some d)).state_prov := by
  clear hadmin
  have hfold := applyComponent_fold_no_locality d.address_components
    ({ place_id := some g.place_id, lat := some g.lat, lng := some g.lng,
       name := g.name, types := g.types }, false) hnl rfl rfl
  simp only [construct_location_info]
  split
  · rfl
  · rename_i hcond
    have hsp : (d.address_components.foldl applyComponent
        ({ place_id := some g.place_id, lat := some g.lat, lng := some g.lng,
           name := g.name, types := g.types }, false)).1.state_prov = none := by
      cases hx : (d.address_components.foldl applyComponent
          ({ place_id := some g.place_id, lat := some g.lat, lng := some g.lng,
             name := g.name, types := g.types }, false)).1.state_prov with
      | none => rfl
      | some v => exact absurd ⟨hfold.2, by rw [hx]; rfl⟩ hcond
    show (d.address_components.foldl applyComponent
        ({ place_id := some g.place_id, lat := some g.lat, lng := some g.lng,
           name := g.name, types := g.types }, false)).1.city = _
    rw [hfold.1, hsp]

/-- Witness for C6 at a concrete input: a details payload with one
administrative_area_level_1 component and no locality component. -/
theorem c6_no_locality_city_equals_state_witness :
    (∀ c ∈ [(⟨"Illinois", "IL", ["administrative_area_level_1", "political"]⟩ :
        AddressComponent)], "locality" ∉ c.types) ∧
    (∃ c ∈ [(⟨"Illinois", "IL", ["administrative_area_level_1", "political"]⟩ :
        AddressComponent)], "administrative_area_level_1" ∈ c.types) ∧
    (construct_location_info gmapsFixture
      (some ⟨[⟨"Illinois", "IL", ["administrative_area_level_1", "political"]⟩],
        "Illinois, USA"⟩)).city =
    (construct_location_info gmapsFixture
      (some ⟨[⟨"Illinois", "IL", ["administrative_area_level_1", "political"]⟩],
        "Illinois, USA"⟩)).state_prov :=
  ⟨by decide, by decide,
    c6_no_locality_city_equals_state gmapsFixture
      ⟨[⟨"Illinois", "IL", ["administrative_area_level_1", "political"]⟩], "Illinois, USA"⟩
      (by decide) (by decide)⟩

/-- Claim C8: the timezone lookup returns an absent result on a transport
failure, a non-success status, or a missing timeZoneId field — but a
200-status response whose body is not valid JSON makes it raise
(`json.loads(tz_result.content)` sits outside the try block), so "never
raises" fails on that input.  The last conjunct also covers the
geocode-miss path. -/
theorem c8_timezone_lookup_error_modes :
    get_timezone_id (fun _ => [gmapsFixture]) (some "key") (.ok ⟨200, none⟩) "Anytown" none =
      .error () ∧
    get_timezone_id (fun _ => [gmapsFixture]) (some "key") (.error ()) "Anytown" none =
      .ok none ∧
    get_timezone_id (fun _ => [gmapsFixture]) (some "key") (.ok ⟨500, none⟩) "Anytown" none =
      .ok none ∧
    get_timezone_id (fun _ => [gmapsFixture]) (some "key") (.ok ⟨200, some ⟨none⟩⟩) "Anytown"
      none = .ok none ∧
    get_timezone_id (fun _ => [gmapsFixture]) (some "key") (.ok ⟨200, some ⟨some "America/Chicago"⟩⟩)
      "Anytown" none = .ok (some "America/Chicago") ∧
    get_timezone_id (fun _ => []) (some "key") (.ok ⟨200, none⟩) "Nowhere" none = .ok none :=
  ⟨rfl, rfl, rfl, rfl, rfl, rfl⟩

/-- Claim C9: when geocoding the entity's raw free-text location yields
no result, both resolvers return the empty record with score 0 and an
empty issued-search log — no place-search query is issued, whatever the
search and details oracles would have answered. -/
theorem c9_geocode_failure_short_circuits (geocode : String → List GMapsResult)
    (search : String → ℚ × ℚ → Bool → List GMapsResult)
    (details : String → Option PlaceDetails) (ev : Event) (team : Team) (textsearch : Bool)
    (hev : geocode ev.location = []) (hteam : geocode team.location = []) :
    get_event_location_info geocode search details ev =
      some (((({} : LocationInfo), 0), [])) ∧
    get_team_location_info geocode search details team textsearch =
      some (((({} : LocationInfo), 0), [])) := by
  constructor
  · unfold get_event_location_info get_lat_lng
    rw [hev]
  · unfold get_team_location_info get_lat_lng
    rw [hteam]

/-- Witness for C9 at a concrete input: a geocode oracle with no results. -/
theorem c9_geocode_failure_short_circuits_witness :
    ((fun (_ : String) => ([] : List GMapsResult)) "L" = []) ∧
    ((fun (_ : String) => ([] : List GMapsResult)) "M" = []) ∧
    get_event_location_info (fun _ => []) (fun _ _ _ => [gmapsFixture]) (fun _ => none)
      ⟨"V", "A", "L"⟩ = some (((({} : LocationInfo), 0), [])) ∧
    get_team_location_info (fun _ => []) (fun _ _ _ => [gmapsFixture]) (fun _ => none)
      ⟨"N", "M"⟩ false = some (((({} : LocationInfo), 0), [])) := by
  have h := c9_geocode_failure_short_circuits (fun _ => []) (fun _ _ _ => [gmapsFixture])
    (fun _ => none) ⟨"V", "A", "L"⟩ ⟨"N", "M"⟩ false rfl rfl
  exact ⟨rfl, rfl, h.1, h.2⟩

/-- Claim C10: the team scorer reads the candidate's name unconditionally
and lowercases it, so it is total exactly when the name is a string: it
raises (returns none) iff the name is absent/None, and when the name is
present it returns a score lying in [0, 1]. -/
theorem c10_team_score_totality (q : String) (info : LocationInfo) :
    (compute_team_location_score q info = none ↔ info.name = none) ∧
    (∀ n, info.name = some n →
      ∃ r, compute_team_location_score q info = some r ∧ 0 ≤ r ∧ r ≤ 1) := by
  constructor
  · constructor
    · intro h
      cases hn : info.name with
      | none => rfl
      | some n => rw [compute_team_location_score, hn] at h; exact absurd h (by simp)
    · intro h
      rw [compute_team_location_score, h]
  · intro n hn
    have hs0 : (0 : ℝ) ≤ ((get_similarity q n : ℚ) : ℝ) := simR_nonneg q n
    have hs1 : ((get_similarity q n : ℚ) : ℝ) ≤ 1 := simR_le_one q n
    have hp0 : 0 ≤ ((get_similarity q n : ℚ) : ℝ) ^ ((1 : ℝ) / 3) :=
      Real.rpow_nonneg hs0 _
    have hp1 : ((get_similarity q n : ℚ) : ℝ) ^ ((1 : ℝ) / 3) ≤ 1 :=
      Real.rpow_le_one hs0 hs1 (by norm_num)
    rw [compute_team_location_score, hn]
    dsimp only
    by_cases ht : "school" ∈ info.types ∨ "university" ∈ info.types
    · rw [if_pos ht]
      exact ⟨_, rfl, hp0, hp1⟩
    · rw [if_neg ht]
      refine ⟨_, rfl, mul_nonneg hp0 (by norm_num), ?_⟩
      nlinarith [hp0, hp1]

/-- Witness for C10 at a concrete input. -/
theorem c10_team_score_totality_witness :
    ((({ name := some "Springfield High School" } : LocationInfo)).name =
      some "Springfield High School") ∧
    ∃ r, compute_team_location_score "Springfield High"
        { name := some "Springfield High School" } = some r ∧ 0 ≤ r ∧ r ≤ 1 :=
  ⟨rfl, (c10_team_score_totality "Springfield High"
    { name := some "Springfield High School" }).2 "Springfield High School" rfl⟩

end LocationHelper
